import Mathlib

/-!
Verification of the portfolio optimization engine
(`efficient_frontier_cal.py`, `calculate_index.py`) against its
natural-language specification.

The numerical solver `scipy.optimize.minimize` and the regression backend
`sklearn.LinearRegression` are external libraries: the solver is embedded as
an explicit parameter receiving the exact call arguments the source builds
(objective, initial guess, bounds, equality constraints) and returning a
weight vector together with a success flag; the regression backend is
modelled from the spec as closed-form ordinary least squares.
Scalars are real numbers; `numpy` float operations become the corresponding
real operations (`np.sqrt` is `Real.sqrt`, `np.dot` is `Matrix.dotProduct`).
-/

namespace EFCal

/-- Shallow embedding of `calculate_portfolio_performance` from
`efficient_frontier_cal.py` (lines 35-49):
`portfolio_return = np.dot(weights, mean_returns)` and
`portfolio_risk = np.sqrt(np.dot(weights.T, np.dot(cov_matrix, weights)))`.
There is no clamping and no check of the quadratic form in the source. -/
noncomputable def calculate_portfolio_performance {n : ℕ}
    (weights mean_returns : Fin n → ℝ)
    (cov_matrix : Matrix (Fin n) (Fin n) ℝ) : ℝ × ℝ :=
  (Matrix.dotProduct weights mean_returns,
   Real.sqrt (Matrix.dotProduct weights (Matrix.mulVec cov_matrix weights)))

/-- An equality constraint handed to the solver: the source passes
`{'type': 'eq', 'fun': lambda x: ...}` dictionaries; every constraint in the
source is of type `eq`, so only the constraint function is recorded. -/
structure EqConstraint (n : ℕ) where
  fn : (Fin n → ℝ) → ℝ

/-- The full argument record of one `scipy.optimize.minimize` call as built
by the source: objective function, initial guess `x0`, per-asset bounds and
the list of equality constraints. -/
structure MinimizeArgs (n : ℕ) where
  objective : (Fin n → ℝ) → ℝ
  x0 : Fin n → ℝ
  bounds : Fin n → ℝ × ℝ
  constraints : List (EqConstraint n)

/-- The solver result consumed by the source: `result.x` (the weight vector)
and `result.success` (the convergence flag). -/
structure OptResult (n : ℕ) where
  x : Fin n → ℝ
  success : Bool

/-- The argument record `min_variance` (lines 51-68) builds for its single
solver call: objective is the portfolio risk, initial guess is
`num_assets * [1. / num_assets]`, bounds `(0, 1)` per asset, and the single
budget constraint `np.sum(x) - 1`. -/
noncomputable def min_variance_args {n : ℕ} (mean_returns : Fin n → ℝ)
    (cov_matrix : Matrix (Fin n) (Fin n) ℝ) : MinimizeArgs n :=
  { objective := fun x => (calculate_portfolio_performance x mean_returns cov_matrix).2
    x0 := fun _ => 1 / (n : ℝ)
    bounds := fun _ => (0, 1)
    constraints := [⟨fun x => (∑ i, x i) - 1⟩] }

/-- Shallow embedding of `min_variance` (lines 51-68): it calls the solver
on `min_variance_args` and returns `result.x` unconditionally (the source
never reads `result.success` here). -/
noncomputable def min_variance {n : ℕ} (mean_returns : Fin n → ℝ)
    (cov_matrix : Matrix (Fin n) (Fin n) ℝ)
    (minimize : MinimizeArgs n → OptResult n) : Fin n → ℝ :=
  (minimize (min_variance_args mean_returns cov_matrix)).x

/-- The argument record built for one target return inside the
`efficient_frontier` sweep (lines 86-93): budget constraint plus the
target-return constraint `np.dot(x, mean_returns) - target`. -/
noncomputable def efficient_frontier_args {n : ℕ} (mean_returns : Fin n → ℝ)
    (cov_matrix : Matrix (Fin n) (Fin n) ℝ) (target : ℝ) : MinimizeArgs n :=
  { objective := fun x => (calculate_portfolio_performance x mean_returns cov_matrix).2
    x0 := fun _ => 1 / (n : ℝ)
    bounds := fun _ => (0, 1)
    constraints := [⟨fun x => (∑ i, x i) - 1⟩,
                    ⟨fun x => Matrix.dotProduct x mean_returns - target⟩] }

/-- Shallow embedding of `efficient_frontier` (lines 70-97): for each target
in order, solve; when `result.success` holds, append the evaluated risk of
`result.x` to `risks` and the target itself to `returns`; otherwise skip the
target and continue the sweep. -/
noncomputable def efficient_frontier {n : ℕ} (mean_returns : Fin n → ℝ)
    (cov_matrix : Matrix (Fin n) (Fin n) ℝ) (target_returns : List ℝ)
    (minimize : MinimizeArgs n → OptResult n) : List ℝ × List ℝ :=
  match target_returns with
  | [] => ([], [])
  | target :: rest =>
    let result := minimize (efficient_frontier_args mean_returns cov_matrix target)
    let tail := efficient_frontier mean_returns cov_matrix rest minimize
    if result.success then
      ((calculate_portfolio_performance result.x mean_returns cov_matrix).2 :: tail.1,
       target :: tail.2)
    else
      tail

/-- The argument record `calculate_tangent_portfolio` (lines 99-116) builds:
objective is the negative Sharpe ratio
`-np.dot(x, excess_returns) / risk(x)` with
`excess_returns = mean_returns - risk_free_rate`, uniform initial guess,
bounds `(0, 1)`, budget constraint only. -/
noncomputable def calculate_tangent_portfolio_args {n : ℕ}
    (mean_returns : Fin n → ℝ) (cov_matrix : Matrix (Fin n) (Fin n) ℝ)
    (risk_free_rate : ℝ) : MinimizeArgs n :=
  { objective := fun x =>
      -(Matrix.dotProduct x (fun i => mean_returns i - risk_free_rate)) /
        (calculate_portfolio_performance x mean_returns cov_matrix).2
    x0 := fun _ => 1 / (n : ℝ)
    bounds := fun _ => (0, 1)
    constraints := [⟨fun x => (∑ i, x i) - 1⟩] }

/-- Shallow embedding of `calculate_tangent_portfolio` (lines 99-119): take
`weights = result.x` unconditionally (the success flag is never read), then
return `(weights, portfolio_return, portfolio_risk)` where the last two are
`calculate_portfolio_performance(weights, mean_returns, cov_matrix)`. -/
noncomputable def calculate_tangent_portfolio {n : ℕ}
    (mean_returns : Fin n → ℝ) (cov_matrix : Matrix (Fin n) (Fin n) ℝ)
    (risk_free_rate : ℝ)
    (minimize : MinimizeArgs n → OptResult n) : (Fin n → ℝ) × ℝ × ℝ :=
  let weights :=
    (minimize (calculate_tangent_portfolio_args mean_returns cov_matrix risk_free_rate)).x
  let perf := calculate_portfolio_performance weights mean_returns cov_matrix
  (weights, perf.1, perf.2)

/-- The error taxonomy entry the spec assigns to a non-PSD covariance input
surfacing as a negative quadratic form. -/
inductive PerfError where
  | numericalInstability

/-- Modelled from the spec: the clamping and `NumericalInstabilityError`
behavior §4.3 requires of `PortfolioPerformance.evaluate` has no
implementation anywhere in the repository; this definition follows the
spec words — clamp a negative quadratic form arising from floating error
at exactly 0 before the square root, and fail with
`NumericalInstabilityError` when the quadratic form is negative beyond the
tolerance −1e-10. It exists to be compared with the source-derived
`calculate_portfolio_performance`. -/
noncomputable def evaluate_spec {n : ℕ} (weights mean_returns : Fin n → ℝ)
    (cov_matrix : Matrix (Fin n) (Fin n) ℝ) : Except PerfError (ℝ × ℝ) :=
  let q := Matrix.dotProduct weights (Matrix.mulVec cov_matrix weights)
  if q < -(1e-10) then Except.error PerfError.numericalInstability
  else Except.ok (Matrix.dotProduct weights mean_returns, Real.sqrt (max q 0))

/-- One-asset weight vector `[1]` used as concrete input. -/
def w1 : Fin 1 → ℝ := fun _ => 1

/-- One-asset mean vector `[0]` used as concrete input. -/
def mu1 : Fin 1 → ℝ := fun _ => 0

/-- One-asset "covariance" `[[-1]]` (not PSD) used as concrete input. -/
def covNeg : Matrix (Fin 1) (Fin 1) ℝ := fun _ _ => -1

/-- Two-asset concrete mean vector `[0.01, 0.02]`. -/
noncomputable def mu2 : Fin 2 → ℝ := ![1 / 100, 2 / 100]

/-- Two-asset concrete diagonal covariance matrix. -/
noncomputable def cov2 : Matrix (Fin 2) (Fin 2) ℝ :=
  Matrix.of ![![1 / 100, 0], ![0, 1 / 100]]

/-- A weight vector `[2, 3]` violating both the bounds and the budget;
the kind of garbage iterate a failed solve can leave behind. -/
def badX : Fin 2 → ℝ := ![2, 3]

/-- A solver double that fails to converge on every call, handing back the
infeasible iterate `badX` with `success = false` — behavior the spec
explicitly allows of the external `scipy.optimize.minimize`
("zero/garbage weights" on non-convergence). -/
def badSolver : MinimizeArgs 2 → OptResult 2 := fun _ => ⟨badX, false⟩

/-- The uniform two-asset weight vector `[0.5, 0.5]`. -/
noncomputable def halfX : Fin 2 → ℝ := ![1 / 2, 1 / 2]

/-- A solver double that converges on every call to the feasible uniform
portfolio. -/
noncomputable def goodSolver : MinimizeArgs 2 → OptResult 2 := fun _ => ⟨halfX, true⟩

/-- The no-short-selling / full-investment invariant on a weight vector as
the spec states it: every component in `[0, 1]` within tolerance and the
components summing to `1` within the tolerance `ε = 1e-6`. -/
def weights_invariant {n : ℕ} (w : Fin n → ℝ) : Prop :=
  (∀ i, -(1e-6) ≤ w i ∧ w i ≤ 1 + 1e-6) ∧ |(∑ i, w i) - 1| ≤ 1e-6

end EFCal

namespace CalcIndex

/-- Shallow embedding of the Treynor ratio computation of
`calculate_index.py` (line 49):
`treynor_ratio = (daily_return_mean - risk_free_rate) / beta`, computed
unconditionally — the source has no guard on `beta`. -/
noncomputable def treynor_ratio (daily_return_mean risk_free_rate beta : ℝ) : ℝ :=
  (daily_return_mean - risk_free_rate) / beta

/-- Arithmetic mean of a list of reals. -/
noncomputable def listMean (xs : List ℝ) : ℝ := xs.sum / xs.length

/-- Modelled from the spec: the slope produced by the external
`sklearn.linear_model.LinearRegression` fit of `calculate_index.py`
(lines 44-47), which the repository does not implement itself; per spec
§4.2 it is simple ordinary least squares with intercept, whose slope has
the closed form `Σ(xᵢ−x̄)(yᵢ−ȳ) / Σ(xᵢ−x̄)²`. -/
noncomputable def beta_ols (x y : List ℝ) : ℝ :=
  (List.zipWith (fun a b => (a - listMean x) * (b - listMean y)) x y).sum /
    (x.map fun a => (a - listMean x) ^ 2).sum

/-- Modelled from the spec: the OLS intercept, `ȳ − slope · x̄`. -/
noncomputable def alpha_ols (x y : List ℝ) : ℝ :=
  listMean y - beta_ols x y * listMean x

end CalcIndex

namespace Claims

open EFCal CalcIndex

/-- Claim C1: for every weight vector, mean vector and covariance matrix,
`calculate_portfolio_performance` returns the pair whose first component is
the dot product of weights and means and whose second component is the
square root of the quadratic form of the weights under the covariance
matrix. -/
theorem C1_performance_formula {n : ℕ} (w mu : Fin n → ℝ)
    (sigma : Matrix (Fin n) (Fin n) ℝ) :
    calculate_portfolio_performance w mu sigma =
      (∑ i, w i * mu i, Real.sqrt (∑ i, ∑ j, w i * sigma i j * w j)) := by
  unfold calculate_portfolio_performance
  have h : Matrix.dotProduct w (Matrix.mulVec sigma w) =
      ∑ i, ∑ j, w i * sigma i j * w j := by
    simp only [Matrix.dotProduct, Matrix.mulVec, Finset.mul_sum]
    exact Finset.sum_congr rfl fun i _ => Finset.sum_congr rfl fun j _ => by ring
  rw [h]
  rfl

/-- Claim C2 counterexample: at the one-asset input with weights `[1]` and
covariance `[[-1]]` the quadratic form is `-1`, which is negative beyond the
tolerance `-1e-10`, yet the source evaluator returns the value pair
`(0, Real.sqrt (-1)) = (0, 0)` instead of failing, while the spec-modelled
evaluator fails with `NumericalInstabilityError`: the claim that the
evaluator clamps and fails is false of the source. -/
theorem C2_counterexample :
    Matrix.dotProduct w1 (Matrix.mulVec covNeg w1) = -1 ∧
    (-1 : ℝ) < -(1e-10) ∧
    calculate_portfolio_performance w1 mu1 covNeg = (0, 0) ∧
    evaluate_spec w1 mu1 covNeg = Except.error PerfError.numericalInstability := by
  have hq : Matrix.dotProduct w1 (Matrix.mulVec covNeg w1) = -1 := by
    simp [w1, covNeg, Matrix.dotProduct, Matrix.mulVec, Fin.sum_univ_one]
  refine ⟨hq, by norm_num, ?_, ?_⟩
  · show (Matrix.dotProduct w1 mu1, Real.sqrt _) = (0, 0)
    rw [hq, Real.sqrt_eq_zero_of_nonpos (by norm_num : (-1 : ℝ) ≤ 0)]
    simp [w1, mu1, Matrix.dotProduct]
  · simp only [evaluate_spec]
    rw [hq, if_pos (by norm_num : (-1 : ℝ) < -(1e-10))]

/-- Claim C2 (amended): `calculate_portfolio_performance` performs no
clamping and no tolerance check and never fails — even when the quadratic
form is negative beyond `-1e-10` it returns the unguarded pair
`(dot(w, mu), sqrt(w^T Sigma w))` (a float NaN in the source, since the
square root of a negative number is taken), exactly where the spec-modelled
evaluator fails with `NumericalInstabilityError`. -/
theorem C2_no_clamp_no_failure {n : ℕ} (w mu : Fin n → ℝ)
    (sigma : Matrix (Fin n) (Fin n) ℝ)
    (h : Matrix.dotProduct w (Matrix.mulVec sigma w) < -(1e-10)) :
    calculate_portfolio_performance w mu sigma =
      (Matrix.dotProduct w mu,
       Real.sqrt (Matrix.dotProduct w (Matrix.mulVec sigma w))) ∧
    evaluate_spec w mu sigma = Except.error PerfError.numericalInstability := by
  refine ⟨rfl, ?_⟩
  simp only [evaluate_spec]
  rw [if_pos h]

/-- Witness for the amended C2 theorem at the concrete non-PSD input. -/
theorem C2_no_clamp_no_failure_witness :
    calculate_portfolio_performance w1 mu1 covNeg =
      (Matrix.dotProduct w1 mu1,
       Real.sqrt (Matrix.dotProduct w1 (Matrix.mulVec covNeg w1))) ∧
    evaluate_spec w1 mu1 covNeg = Except.error PerfError.numericalInstability :=
  C2_no_clamp_no_failure w1 mu1 covNeg (by
    have hq : Matrix.dotProduct w1 (Matrix.mulVec covNeg w1) = -1 := by
      simp [w1, covNeg, Matrix.dotProduct, Matrix.mulVec, Fin.sum_univ_one]
    rw [hq]
    norm_num)

/-- Claim C3 counterexample: with a solver that reports non-convergence
(`success = false`) and hands back the garbage vector `[2, 3]`,
`min_variance` returns that non-converged vector to its caller, and so does
`calculate_tangent_portfolio` — neither inspects the success flag, so the
claim that every caller checks it and discards the result is false. -/
theorem C3_counterexample :
    (badSolver (min_variance_args mu2 cov2)).success = false ∧
    min_variance mu2 cov2 badSolver = badX ∧
    (calculate_tangent_portfolio mu2 cov2 0 badSolver).1 = badX :=
  ⟨rfl, rfl, rfl⟩

/-- Claim C3 (amended): only the frontier sweep inspects `result.success`
(a target appears in its output exactly when its solve succeeded), while
`min_variance` and `calculate_tangent_portfolio` return `result.x`
unconditionally, whatever the flag. -/
theorem C3_success_flag_usage {n : ℕ} (mu : Fin n → ℝ)
    (cov : Matrix (Fin n) (Fin n) ℝ) (rf : ℝ) (targets : List ℝ)
    (minimize : MinimizeArgs n → OptResult n) :
    min_variance mu cov minimize = (minimize (min_variance_args mu cov)).x ∧
    (calculate_tangent_portfolio mu cov rf minimize).1 =
      (minimize (calculate_tangent_portfolio_args mu cov rf)).x ∧
    (efficient_frontier mu cov targets minimize).2 =
      targets.filter (fun t => (minimize (efficient_frontier_args mu cov t)).success) := by
  refine ⟨rfl, rfl, ?_⟩
  induction targets with
  | nil => rfl
  | cons t ts ih =>
    by_cases hs : (minimize (efficient_frontier_args mu cov t)).success = true
    · simp [efficient_frontier, hs, ih]
    · simp [efficient_frontier, hs, ih]

/-- Claim C4: the frontier sweep excludes every target whose solve did not
converge, keeps going with the remaining targets, and — the embedding being
a total function — raises nothing: the returned target list is the filter
of the input list by solver success (hence possibly shorter than the
input), and the risks list always has matching length. -/
theorem C4_sweep_drops_nonconverged {n : ℕ} (mu : Fin n → ℝ)
    (cov : Matrix (Fin n) (Fin n) ℝ) (targets : List ℝ)
    (minimize : MinimizeArgs n → OptResult n) :
    (efficient_frontier mu cov targets minimize).2 =
      targets.filter (fun t => (minimize (efficient_frontier_args mu cov t)).success) ∧
    (efficient_frontier mu cov targets minimize).1.length =
      (efficient_frontier mu cov targets minimize).2.length := by
  induction targets with
  | nil => exact ⟨rfl, rfl⟩
  | cons t ts ih =>
    by_cases hs : (minimize (efficient_frontier_args mu cov t)).success = true
    · exact ⟨by simp [efficient_frontier, hs, ih.1], by simp [efficient_frontier, hs, ih.2]⟩
    · exact ⟨by simp [efficient_frontier, hs, ih.1], by simp [efficient_frontier, hs, ih.2]⟩

/-- Claim C9: the frontier sweep output is fully characterized — the
returns component is exactly the subsequence of the input targets (in input
order) whose solves converged, each entry being the requested target itself
and not the achieved dot product, and the risks component is the pointwise
evaluated risk of each such solve's weight vector. -/
theorem C9_frontier_characterization {n : ℕ} (mu : Fin n → ℝ)
    (cov : Matrix (Fin n) (Fin n) ℝ) (targets : List ℝ)
    (minimize : MinimizeArgs n → OptResult n) :
    efficient_frontier mu cov targets minimize =
      ((targets.filter
          (fun t => (minimize (efficient_frontier_args mu cov t)).success)).map
        (fun t => (calculate_portfolio_performance
          (minimize (efficient_frontier_args mu cov t)).x mu cov).2),
       targets.filter
         (fun t => (minimize (efficient_frontier_args mu cov t)).success)) := by
  induction targets with
  | nil => rfl
  | cons t ts ih =>
    by_cases hs : (minimize (efficient_frontier_args mu cov t)).success = true
    · simp [efficient_frontier, hs, ih]
    · simp [efficient_frontier, hs, ih]

/-- Claim C5 counterexample: under a solver that fails to converge and
leaves the infeasible iterate `[2, 3]` — behavior the spec itself grants
the external solver — `min_variance` outputs a weight vector violating the
no-short-selling / full-investment invariant, because it never checks the
success flag; so the invariant does not hold of every weight vector the
engine produces. -/
theorem C5_counterexample :
    ¬ weights_invariant (min_variance mu2 cov2 badSolver) := by
  intro h
  have h3 : ((3 : ℝ)) ≤ 1 + 1e-6 := by
    have hb := (h.1 1).2
    simpa [min_variance, min_variance_args, badSolver, badX] using hb
  norm_num at h3

/-- Claim C5 (amended): the invariant holds of the minimum-variance and
tangent-portfolio outputs exactly when the underlying solver hands back
feasible vectors — the engine itself never enforces or re-checks it. -/
theorem C5_invariant_under_feasible_solver {n : ℕ} (mu : Fin n → ℝ)
    (cov : Matrix (Fin n) (Fin n) ℝ) (rf : ℝ)
    (minimize : MinimizeArgs n → OptResult n)
    (hfeas : ∀ args : MinimizeArgs n, weights_invariant (minimize args).x) :
    weights_invariant (min_variance mu cov minimize) ∧
    weights_invariant (calculate_tangent_portfolio mu cov rf minimize).1 :=
  ⟨hfeas _, hfeas _⟩

/-- Witness for the amended C5 theorem with the always-feasible solver. -/
theorem C5_invariant_witness :
    weights_invariant (min_variance mu2 cov2 goodSolver) ∧
    weights_invariant (calculate_tangent_portfolio mu2 cov2 0 goodSolver).1 :=
  C5_invariant_under_feasible_solver mu2 cov2 0 goodSolver (by
    intro args
    constructor
    · intro i
      fin_cases i <;> constructor <;> norm_num [goodSolver, halfX]
    · have hsum : (∑ i, (goodSolver args).x i) = 1 := by
        simp [goodSolver, halfX, Fin.sum_univ_two]
        norm_num
      rw [hsum]
      norm_num)

/-- Claim C6: all three optimization call sites hand the solver the uniform
portfolio `1/n` per asset as initial guess (the source offers no way for a
caller to supply one), and for `n > 0` that guess is itself fully invested. -/
theorem C6_uniform_initial_guess {n : ℕ} (hn : 0 < n) (mu : Fin n → ℝ)
    (cov : Matrix (Fin n) (Fin n) ℝ) (rf t : ℝ) :
    (min_variance_args mu cov).x0 = (fun _ => 1 / (n : ℝ)) ∧
    (efficient_frontier_args mu cov t).x0 = (fun _ => 1 / (n : ℝ)) ∧
    (calculate_tangent_portfolio_args mu cov rf).x0 = (fun _ => 1 / (n : ℝ)) ∧
    (∑ i, (min_variance_args mu cov).x0 i) = 1 := by
  have hne : (n : ℝ) ≠ 0 := Nat.cast_ne_zero.mpr hn.ne'
  refine ⟨rfl, rfl, rfl, ?_⟩
  simp only [min_variance_args]
  rw [Finset.sum_const, Finset.card_univ, Fintype.card_fin, nsmul_eq_mul]
  field_simp

/-- Witness for C6 at the concrete two-asset inputs. -/
theorem C6_uniform_initial_guess_witness :
    (min_variance_args mu2 cov2).x0 = (fun _ => 1 / ((2 : ℕ) : ℝ)) ∧
    (efficient_frontier_args mu2 cov2 0).x0 = (fun _ => 1 / ((2 : ℕ) : ℝ)) ∧
    (calculate_tangent_portfolio_args mu2 cov2 0).x0 = (fun _ => 1 / ((2 : ℕ) : ℝ)) ∧
    (∑ i, (min_variance_args mu2 cov2).x0 i) = 1 :=
  C6_uniform_initial_guess (by norm_num) mu2 cov2 0 0

/-- Claim C7 counterexample: at `beta = 1e-9`, which is nonzero but well
inside any reasonable "approximately 0" tolerance, the Treynor computation
returns the silently huge finite value `10^6` — no division error is raised
and no infinity is signalled, so the claim's error-handling clause is false
of the source. -/
theorem C7_counterexample :
    treynor_ratio (1 / 1000) 0 (1e-9) = 1000000 ∧
    (1e-9 : ℝ) ≠ 0 ∧ |(1e-9 : ℝ)| < 1e-6 := by
  refine ⟨?_, by norm_num, ?_⟩
  · unfold treynor_ratio
    norm_num
  · rw [abs_of_pos (by norm_num : (0 : ℝ) < 1e-9)]
    norm_num

/-- Claim C7 (amended): for every nonzero `beta`, however close to zero,
the Treynor computation returns the plain quotient
`(mean − riskFreeRate) / beta` — characterized by multiplying back —
with no guard, no error and no signalled infinity. -/
theorem C7_no_zero_guard (m rf b : ℝ) (hb : b ≠ 0) :
    treynor_ratio m rf b * b = m - rf := by
  unfold treynor_ratio
  exact div_mul_cancel₀ _ hb

/-- Witness for the amended C7 theorem at `beta = 1e-9`. -/
theorem C7_no_zero_guard_witness :
    treynor_ratio (1 / 1000) 0 (1e-9) * (1e-9) = 1 / 1000 - 0 :=
  C7_no_zero_guard (1 / 1000) 0 (1e-9) (by norm_num)

/-- Claim C8: regressing a non-constant series against itself under the
spec-modelled ordinary least squares yields slope exactly 1 and intercept
exactly 0 (the tolerance is not even needed over the reals). -/
theorem C8_self_regression (xs : List ℝ)
    (hvar : ((xs.map fun a => (a - listMean xs) ^ 2).sum) ≠ 0) :
    beta_ols xs xs = 1 ∧ alpha_ols xs xs = 0 := by
  have hz : ∀ (c : ℝ) (l : List ℝ),
      List.zipWith (fun a b => (a - c) * (b - c)) l l = l.map fun a => (a - c) ^ 2 := by
    intro c l
    induction l with
    | nil => rfl
    | cons a as ih => simp [List.zipWith_cons_cons, ih, pow_two]
  have hb : beta_ols xs xs = 1 := by
    unfold beta_ols
    rw [hz]
    exact div_self hvar
  refine ⟨hb, ?_⟩
  unfold alpha_ols
  rw [hb]
  ring

/-- Witness for C8 on the concrete non-constant series `[0, 1]`. -/
theorem C8_self_regression_witness :
    beta_ols [0, 1] [0, 1] = 1 ∧ alpha_ols [0, 1] [0, 1] = 0 :=
  C8_self_regression [0, 1] (by norm_num [listMean])

/-- Claim C10: the triple returned by `calculate_tangent_portfolio` is
internally consistent — its return and risk components are exactly the pair
obtained by evaluating `calculate_portfolio_performance` on its weights
component with the same means and covariance. -/
theorem C10_tangent_consistency {n : ℕ} (mu : Fin n → ℝ)
    (cov : Matrix (Fin n) (Fin n) ℝ) (rf : ℝ)
    (minimize : MinimizeArgs n → OptResult n) :
    ((calculate_tangent_portfolio mu cov rf minimize).2.1,
     (calculate_tangent_portfolio mu cov rf minimize).2.2) =
      calculate_portfolio_performance
        (calculate_tangent_portfolio mu cov rf minimize).1 mu cov :=
  rfl

end Claims
